import Mathlib

/-!
Verification of the lake surface-heat-flux pipeline
(`lake_sheatbalance.py` and `main.py`).

The elementwise flux functions operate on floating-point numbers in the
source; they are embedded here as functions on `ℝ`.  The pandas
`DataFrame` manipulation inside `heat_content` is embedded as an
association list of named columns, each column a list of `Option ℚ`
entries (`none` models `NaN`).  The external integrator
`pylake.heat_content` is out of this repository and is passed as an
explicit function parameter.
-/

namespace LakeHeat

/-! ## Flux model (`lake_sheatbalance.py`) -/

/-- `sat_vaporpress(temp)`: `6.112 * exp(17.62*temp / (243.12+temp))`. -/
noncomputable def sat_vaporpress (temp : ℝ) : ℝ :=
  6.112 * Real.exp ((17.62 * temp) / (243.12 + temp))

/-- `vapor_pressure(temp, rh)`: `rh * sat_vaporpress(temp) / 100`. -/
noncomputable def vapor_pressure (temp rh : ℝ) : ℝ :=
  rh * sat_vaporpress temp / 100

/-- `transfer_function(wind10, wtemp, temp)`: `4.8 + 1.98*wind10 + 0.28*(wtemp-temp)`. -/
noncomputable def transfer_function (wind10 wtemp temp : ℝ) : ℝ :=
  4.8 + 1.98 * wind10 + 0.28 * (wtemp - temp)

/-- `latent_heat(f1, ew, ea)`: `-f1 * (ew - ea)`. -/
noncomputable def latent_heat (f1 ew ea : ℝ) : ℝ :=
  -f1 * (ew - ea)

/-- `psychrometric_constant(airp)`: `1005 * airp / (2.47e6 * 0.622)`. -/
noncomputable def psychrometric_constant (airp : ℝ) : ℝ :=
  1005 * airp / (2470000 * 0.622)

/-- `sensible_heat(psy, f1, wtemp, temp)`: `-psy * f1 * (wtemp - temp)`. -/
noncomputable def sensible_heat (psy f1 wtemp temp : ℝ) : ℝ :=
  -psy * f1 * (wtemp - temp)

/-- `swrad_in(rad, albedo)`: `rad_out` starts as `0*rad` and becomes
`rad*albedo` exactly where `rad > 5`; the result is `rad - rad_out`. -/
noncomputable def swrad_in (rad albedo : ℝ) : ℝ :=
  rad - (if 5 < rad then rad * albedo else 0 * rad)

/-- `heat_balance(hs, ha, hw, he, hc)`: elementwise sum of the five flux terms. -/
noncomputable def heat_balance (hs ha hw he hc : ℝ) : ℝ :=
  hs + ha + hw + he + hc

/-! ## Budget closure (`main.py`, lines 57-76) -/

/-- The maximum of a pandas numeric column (`Series.max`), over a list of
rationals: fold of `max` over the entries, starting from the first. -/
def maxArea : List ℚ → ℚ
  | [] => 0
  | a :: l => l.foldl max a

/-- `dhw = -(dhdt - hnet) * bath_data.Area_m2.max()` (line 59 of `main.py`),
elementwise over the aligned time index. -/
noncomputable def dhw_series (dhdt hnet : ℕ → ℝ) (amax : ℚ) : ℕ → ℝ :=
  fun t => -(dhdt t - hnet t) * (amax : ℝ)

/-- `np.linspace(a, b, n)`: entry `i` is `a + (b-a)*i/(n-1)`. -/
noncomputable def np_linspace (a b : ℝ) (n : ℕ) : ℕ → ℝ :=
  fun i => a + (b - a) * i / ((n : ℝ) - 1)

/-- `wheat = dens0(wtemp) * 4186 * wtemp` with
`wtemp = np.linspace(2, tmax, n)` (lines 61-70 of `main.py`); the density
function is external and passed as a parameter. -/
noncomputable def flow_heat (dens : ℝ → ℝ) (tmax : ℝ) (n : ℕ) : ℕ → ℝ :=
  fun i => dens (np_linspace 2 tmax n i) * 4186 * np_linspace 2 tmax n i

/-- `flow = dhw / wheat` elementwise (line 76 of `main.py`). -/
noncomputable def flow_series (dhw wheat : ℕ → ℝ) : ℕ → ℝ :=
  fun i => dhw i / wheat i

/-! ## The `heat_content` wrapper (`main.py`, lines 102-124)

A pandas `DataFrame` is modelled as an association list of columns: each
column is a name together with a list of `Option ℚ` values over the
shared time index (`none` models `NaN`).  Column assignment
(`df[c] = v`) replaces the column named `c` if present and appends it at
the end otherwise, mutating the frame in place — `heat_content` receives
its frames by reference, so the embedding returns the updated frames
alongside the computed series. -/

abbrev Table := List (String × List (Option ℚ))

/-- Read column `c` of a frame (empty when the column is absent). -/
def getCol (t : Table) (c : String) : List (Option ℚ) :=
  match t with
  | [] => []
  | (cn, v) :: rest => if cn = c then v else getCol rest c

/-- `df[c] = v`: replace the first column named `c`, or append it. -/
def setCol (t : Table) (c : String) (v : List (Option ℚ)) : Table :=
  match t with
  | [] => [(c, v)]
  | (cn, w) :: rest => if cn = c then (c, v) :: rest else (cn, w) :: setCol rest c v

/-- `df.iloc[i].values`: the row of a frame at time index `i`, one entry
per column (`none` when the entry is `NaN`; frames are index-aligned, so
every column has the full length of the time index). -/
def rowAt (t : Table) (i : ℕ) : List (Option ℚ) :=
  t.map (fun c => c.2.getD i none)

/-- `heat_content(temp_data, depth_data, bath_data)` of `main.py`:
adds the surface column `"0"` to both frames
(`temp_data["0"] = temp_data["0.45"]`; `depth_data["0"] = 0` masked to
`NaN` where `temp_data["0.45"]` is `NaN`), then per time index appends
`NaN` when the whole temperature row is `NaN` and otherwise the value of
the external integrator `pylake.heat_content` (the parameter `hcfun`,
applied to the temperature row, the bathymetric areas and depths, and
the depth row).  Returns the two mutated frames and the series. -/
def heat_content (hcfun : List (Option ℚ) → List ℚ → List ℚ → List (Option ℚ) → ℚ)
    (temp depth : Table) (bathArea bathDepth : List ℚ) (n : ℕ) :
    Table × Table × List (Option ℚ) :=
  let v0 := getCol temp "0.45"
  let temp' := setCol temp "0" v0
  let depth' := setCol depth "0"
    ((List.range n).map (fun j => if (v0.getD j none).isNone then none else some 0))
  let hc := (List.range n).map (fun i =>
    let rowT := rowAt temp' i
    if rowT.all (fun v => v.isNone) then none
    else some (hcfun rowT bathArea bathDepth (rowAt depth' i)))
  (temp', depth', hc)

/-- The shallowest defined sensor reading of a profile row: the first
non-`NaN` entry, columns being ordered from shallow to deep. -/
def shallowestDefined (t : Table) (i : ℕ) : Option ℚ :=
  (rowAt t i).findSome? id

end LakeHeat

namespace LakeHeat

/-! ## Theorems about the flux model -/

/-- C5: `swrad_in` returns `rad` unchanged when `rad ≤ 5` and
`rad * (1 - albedo)` when `rad > 5`, for every albedo in `[0, 1]`. -/
theorem swrad_in_threshold (rad albedo : ℝ) (h0 : 0 ≤ albedo) (h1 : albedo ≤ 1) :
    (rad ≤ 5 → swrad_in rad albedo = rad) ∧
    (5 < rad → swrad_in rad albedo = rad * (1 - albedo)) := by
  constructor
  · intro h
    rw [swrad_in, if_neg (not_lt.mpr h)]
    ring
  · intro h
    rw [swrad_in, if_pos h]
    ring

/-- Witness for C5: at `rad = 3, albedo = 1/2` the radiation is below the
threshold and passes through unchanged, and at `rad = 10` it is scaled. -/
theorem swrad_in_threshold_witness :
    swrad_in 3 (1/2) = 3 ∧ swrad_in 10 (1/2) = 10 * (1 - 1/2) :=
  ⟨(swrad_in_threshold 3 (1/2) (by norm_num) (by norm_num)).1 (by norm_num),
   (swrad_in_threshold 10 (1/2) (by norm_num) (by norm_num)).2 (by norm_num)⟩

/-- C8: at 100% relative humidity the actual vapor pressure equals the
saturation vapor pressure, for every temperature. -/
theorem vapor_pressure_rh100 (temp : ℝ) :
    vapor_pressure temp 100 = sat_vaporpress temp := by
  rw [vapor_pressure]
  ring

/-- C9: on `[-10, 40]` °C, `sat_vaporpress` is strictly increasing and
positive. -/
theorem sat_vaporpress_strictMono (t1 t2 : ℝ)
    (hl : -10 ≤ t1) (hlt : t1 < t2) (hr : t2 ≤ 40) :
    sat_vaporpress t1 < sat_vaporpress t2 ∧
    0 < sat_vaporpress t1 ∧ 0 < sat_vaporpress t2 := by
  have hd1 : (0 : ℝ) < 243.12 + t1 := by nlinarith
  have hd2 : (0 : ℝ) < 243.12 + t2 := by nlinarith
  have harg : (17.62 * t1) / (243.12 + t1) < (17.62 * t2) / (243.12 + t2) := by
    rw [div_lt_div_iff hd1 hd2]
    nlinarith
  refine ⟨?_, ?_, ?_⟩
  · have hexp := Real.exp_lt_exp.mpr harg
    rw [sat_vaporpress, sat_vaporpress]
    nlinarith [Real.exp_pos ((17.62 * t1) / (243.12 + t1))]
  · rw [sat_vaporpress]
    positivity
  · rw [sat_vaporpress]
    positivity

/-- Witness for C9: the interval `[0, 10]` lies inside `[-10, 40]` and the
saturation pressure increases across it and is positive at both ends. -/
theorem sat_vaporpress_strictMono_witness :
    sat_vaporpress 0 < sat_vaporpress 10 ∧
    0 < sat_vaporpress 0 ∧ 0 < sat_vaporpress 10 :=
  sat_vaporpress_strictMono 0 10 (by norm_num) (by norm_num) (by norm_num)

/-- C3 as stated is false: a transfer-function value produced by
`transfer_function` with `wind10 = 0 ≥ 0` can be negative (here
`transfer_function 0 0 25 = -2.2`), and then `latent_heat` is positive
even though `ew = 2 > 1 = ea`. -/
theorem latent_heat_negative_counterexample :
    (0 : ℝ) ≤ 0 ∧ (1 : ℝ) < 2 ∧
    ¬ latent_heat (transfer_function 0 0 25) 2 1 < 0 := by
  refine ⟨le_refl 0, by norm_num, ?_⟩
  rw [latent_heat, transfer_function]
  norm_num

/-- C3 (amended): `latent_heat f1 ew ea = -f1*(ew-ea)` always, and is
negative whenever `ew > ea` and additionally the transfer-function value
is positive; `transfer_function` computes
`4.8 + 1.98*wind10 + 0.28*(wtemp-temp)`. -/
theorem latent_heat_negative (f1 ew ea : ℝ) (hf : 0 < f1) (hew : ea < ew) :
    latent_heat f1 ew ea = -f1 * (ew - ea) ∧
    latent_heat f1 ew ea < 0 ∧
    (∀ wind10 wtemp temp : ℝ,
      transfer_function wind10 wtemp temp
        = 4.8 + 1.98 * wind10 + 0.28 * (wtemp - temp)) := by
  refine ⟨rfl, ?_, fun _ _ _ => rfl⟩
  rw [latent_heat]
  nlinarith

/-- Witness for C3 (amended): `f1 = 2 > 0`, `ew = 3 > 1 = ea` gives a
negative latent heat. -/
theorem latent_heat_negative_witness :
    latent_heat 2 3 1 = -2 * (3 - 1) ∧
    latent_heat 2 3 1 < 0 ∧
    (∀ wind10 wtemp temp : ℝ,
      transfer_function wind10 wtemp temp
        = 4.8 + 1.98 * wind10 + 0.28 * (wtemp - temp)) :=
  latent_heat_negative 2 3 1 (by norm_num) (by norm_num)

/-- C7: with `wind10 ≥ 0`, positive air pressure and water warmer than
air, the sensible heat computed from `psychrometric_constant` and
`transfer_function` equals `-psy * f1 * (wtemp - temp)` and is negative. -/
theorem sensible_heat_negative (wind10 airp wtemp temp : ℝ)
    (hw : 0 ≤ wind10) (hp : 0 < airp) (ht : temp < wtemp) :
    sensible_heat (psychrometric_constant airp)
        (transfer_function wind10 wtemp temp) wtemp temp
      = -(psychrometric_constant airp)
          * transfer_function wind10 wtemp temp * (wtemp - temp) ∧
    sensible_heat (psychrometric_constant airp)
        (transfer_function wind10 wtemp temp) wtemp temp < 0 := by
  have hpsy : 0 < psychrometric_constant airp := by
    rw [psychrometric_constant]
    apply div_pos (by nlinarith) (by norm_num)
  have hf : 0 < transfer_function wind10 wtemp temp := by
    rw [transfer_function]
    nlinarith
  refine ⟨rfl, ?_⟩
  rw [sensible_heat]
  nlinarith [mul_pos (mul_pos hpsy hf) (sub_pos.mpr ht)]

/-- Witness for C7: wind 2 m/s, pressure 850 hPa, water 8 °C, air 5 °C. -/
theorem sensible_heat_negative_witness :
    sensible_heat (psychrometric_constant 850)
        (transfer_function 2 8 5) 8 5
      = -(psychrometric_constant 850) * transfer_function 2 8 5 * (8 - 5) ∧
    sensible_heat (psychrometric_constant 850)
        (transfer_function 2 8 5) 8 5 < 0 :=
  sensible_heat_negative 2 850 8 5 (by norm_num) (by norm_num) (by norm_num)

/-! ## Column-store lemmas -/

theorem getCol_setCol_same (t : Table) (c : String) (v : List (Option ℚ)) :
    getCol (setCol t c v) c = v := by
  induction t with
  | nil => simp [setCol, getCol]
  | cons p rest ih =>
    obtain ⟨cn, w⟩ := p
    by_cases h : cn = c
    · simp [setCol, getCol, h]
    · simp [setCol, getCol, h, ih]

theorem getCol_setCol_ne (t : Table) (c c' : String) (v : List (Option ℚ))
    (h : c' ≠ c) : getCol (setCol t c v) c' = getCol t c' := by
  have hcc : c ≠ c' := fun hx => h hx.symm
  induction t with
  | nil => simp [setCol, getCol, hcc]
  | cons p rest ih =>
    obtain ⟨cn, w⟩ := p
    by_cases hc : cn = c
    · subst hc
      simp [setCol, getCol, hcc]
    · by_cases hc' : cn = c'
      · subst hc'
        simp [setCol, getCol, hc]
      · simp [setCol, getCol, hc, hc', ih]

theorem mem_setCol (t : Table) (c : String) (v : List (Option ℚ))
    (p : String × List (Option ℚ)) (hp : p ∈ setCol t c v) :
    p = (c, v) ∨ p ∈ t := by
  induction t with
  | nil =>
    simp [setCol] at hp
    exact Or.inl hp
  | cons q rest ih =>
    obtain ⟨cn, w⟩ := q
    by_cases h : cn = c
    · simp [setCol, h] at hp
      rcases hp with hp | hp
      · exact Or.inl (by simp [hp])
      · exact Or.inr (List.mem_cons_of_mem _ hp)
    · simp [setCol, h] at hp
      rcases hp with hp | hp
      · exact Or.inr (by simp [hp])
      · rcases ih hp with hp' | hp'
        · exact Or.inl hp'
        · exact Or.inr (List.mem_cons_of_mem _ hp')

theorem getCol_pred (t : Table) (c : String) (P : List (Option ℚ) → Prop)
    (hnil : P []) (hall : ∀ p ∈ t, P p.2) : P (getCol t c) := by
  induction t with
  | nil => exact hnil
  | cons q rest ih =>
    obtain ⟨cn, w⟩ := q
    by_cases h : cn = c
    · simpa [getCol, h] using hall (cn, w) (by simp)
    · simp only [getCol, h, if_false]
      exact ih (fun p hp => hall p (List.mem_cons_of_mem _ hp))

/-! ## Theorems about `heat_content` -/

/-- C4: if the temperature profile at time index `i` is entirely
undefined (every column's entry is `NaN`), the heat-content series entry
at `i` is `NaN`, and in particular is not the value zero. -/
theorem heat_content_undefined_on_gap
    (hcfun : List (Option ℚ) → List ℚ → List ℚ → List (Option ℚ) → ℚ)
    (temp depth : Table) (bathArea bathDepth : List ℚ) (n i : ℕ) (hi : i < n)
    (hall : ∀ p ∈ temp, p.2.getD i none = none) :
    ((heat_content hcfun temp depth bathArea bathDepth n).2.2).getD i (some 0) = none ∧
    ((heat_content hcfun temp depth bathArea bathDepth n).2.2).getD i (some 0) ≠ some 0 := by
  have hv0 : (getCol temp "0.45").getD i none = none :=
    getCol_pred temp "0.45" (fun l => l.getD i none = none) List.getD_nil hall
  have hrow : ∀ x ∈ rowAt (setCol temp "0" (getCol temp "0.45")) i, x = none := by
    intro x hx
    rcases List.mem_map.mp hx with ⟨p, hp, hpx⟩
    rcases mem_setCol temp "0" (getCol temp "0.45") p hp with hp' | hp'
    · rw [← hpx, hp']
      exact hv0
    · rw [← hpx]
      exact hall p hp'
  have hcond : (rowAt (setCol temp "0" (getCol temp "0.45")) i).all
      (fun v => v.isNone) = true := by
    refine List.all_eq_true.mpr ?_
    intro x hx
    exact Option.isNone_iff_eq_none.mpr (hrow x hx)
  have hmain :
      ((heat_content hcfun temp depth bathArea bathDepth n).2.2).getD i (some 0) = none := by
    simp only [heat_content]
    rw [List.getD_eq_getElem?_getD, List.getElem?_map, List.getElem?_range hi]
    simp only [Option.map_some', Option.getD_some]
    rw [if_pos hcond]
  exact ⟨hmain, by rw [hmain]; exact fun h => Option.noConfusion h⟩

/-- Witness for C4: a two-sensor profile whose row 0 is all `NaN`. -/
theorem heat_content_undefined_on_gap_witness :
    ((heat_content (fun _ _ _ _ => 0)
        [("0.45", [none]), ("1.5", [none])] [("0.45", [some 1]), ("1.5", [some 2])]
        [100] [0] 1).2.2).getD 0 (some 0) = none ∧
    ((heat_content (fun _ _ _ _ => 0)
        [("0.45", [none]), ("1.5", [none])] [("0.45", [some 1]), ("1.5", [some 2])]
        [100] [0] 1).2.2).getD 0 (some 0) ≠ some 0 :=
  heat_content_undefined_on_gap (fun _ _ _ _ => 0)
    [("0.45", [none]), ("1.5", [none])] [("0.45", [some 1]), ("1.5", [some 2])]
    [100] [0] 1 0 (by decide) (by decide)

/-- C2 as stated is false for `heat_content`: the temperature frame
passed in is not the frame after the call — `heat_content` adds the
surface column `"0"` in place (and `main` relies on the mutation at line
62, reading `temp_data["0"]` after the call). -/
theorem heat_content_mutates_counterexample :
    (heat_content (fun _ _ _ _ => 0)
        [("0.45", [some 5])] [("0.45", [some 1])] [100] [0] 1).1
      ≠ [("0.45", [some 5])] ∧
    (heat_content (fun _ _ _ _ => 0)
        [("0.45", [some 5])] [("0.45", [some 1])] [100] [0] 1).2.1
      ≠ [("0.45", [some 1])] := by
  constructor
  · decide
  · decide

/-- C2 (amended): the flux functions are pure, and `heat_content`
confines its mutation to the column named `"0"`: every other column of
the temperature and depth frames is unchanged by the call. -/
theorem heat_content_frame (hcfun : List (Option ℚ) → List ℚ → List ℚ → List (Option ℚ) → ℚ)
    (temp depth : Table) (bathArea bathDepth : List ℚ) (n : ℕ)
    (c : String) (hcn : c ≠ "0") :
    getCol (heat_content hcfun temp depth bathArea bathDepth n).1 c = getCol temp c ∧
    getCol (heat_content hcfun temp depth bathArea bathDepth n).2.1 c = getCol depth c :=
  ⟨getCol_setCol_ne temp "0" c _ hcn, getCol_setCol_ne depth "0" c _ hcn⟩

/-- Witness for C2 (amended): the `"0.45"` column survives the call. -/
theorem heat_content_frame_witness :
    getCol (heat_content (fun _ _ _ _ => 0)
        [("0.45", [some 5])] [("0.45", [some 1])] [100] [0] 1).1 "0.45"
      = getCol [("0.45", [some 5])] "0.45" ∧
    getCol (heat_content (fun _ _ _ _ => 0)
        [("0.45", [some 5])] [("0.45", [some 1])] [100] [0] 1).2.1 "0.45"
      = getCol [("0.45", [some 1])] "0.45" :=
  heat_content_frame (fun _ _ _ _ => 0)
    [("0.45", [some 5])] [("0.45", [some 1])] [100] [0] 1 "0.45" (by decide)

/-- C6 as stated is false: with the shallowest sensor column `"0.45"`
undefined at time 0 but the deeper sensor `"1.5"` defined (value 7), the
shallowest defined reading is 7, yet the surface column `"0"` produced
by `heat_content` carries `NaN` at time 0, because the code copies the
fixed column `"0.45"` rather than the shallowest defined reading. -/
theorem surface_from_shallowest_counterexample :
    shallowestDefined [("0.45", [none]), ("1.5", [some 7])] 0 = some 7 ∧
    (getCol (heat_content (fun _ _ _ _ => 0)
        [("0.45", [none]), ("1.5", [some 7])]
        [("0.45", [some 1]), ("1.5", [some 2])] [100] [0] 1).1 "0").getD 0 none
      = none := by
  constructor
  · decide
  · decide

/-- C6 (amended): the surface boundary value at depth 0 is a flat copy
of the fixed shallowest-sensor column `"0.45"` — defined exactly when
that sensor is defined — and the matching depth column holds 0 where the
sensor is defined and `NaN` where it is not. -/
theorem surface_from_sensor_045
    (hcfun : List (Option ℚ) → List ℚ → List ℚ → List (Option ℚ) → ℚ)
    (temp depth : Table) (bathArea bathDepth : List ℚ) (n : ℕ) :
    getCol (heat_content hcfun temp depth bathArea bathDepth n).1 "0"
      = getCol temp "0.45" ∧
    getCol (heat_content hcfun temp depth bathArea bathDepth n).2.1 "0"
      = (List.range n).map
          (fun j => if ((getCol temp "0.45").getD j none).isNone then none else some 0) :=
  ⟨getCol_setCol_same temp "0" _, getCol_setCol_same depth "0" _⟩

/-! ## Theorems about the budget closure -/

theorem foldl_max_of_le (a : ℚ) (l : List ℚ) (h : ∀ x ∈ l, x ≤ a) :
    l.foldl max a = a := by
  induction l generalizing a with
  | nil => rfl
  | cons b t ih =>
    rw [List.foldl_cons, max_eq_left (h b (by simp))]
    exact ih a (fun x hx => h x (by simp [hx]))

theorem chain_snd_le (p : ℚ × ℚ) (l : List (ℚ × ℚ))
    (h : List.Chain (fun x y : ℚ × ℚ => y.2 ≤ x.2) p l) :
    ∀ x ∈ l, x.2 ≤ p.2 := by
  induction l generalizing p with
  | nil => simp
  | cons q t ih =>
    rw [List.chain_cons] at h
    intro x hx
    rcases List.mem_cons.mp hx with rfl | hx'
    · exact h.1
    · exact le_trans (ih q h.2 x hx') h.1

/-- C1: the residual power series is `-(dhdt - hnet)` times the maximum
area of the bathymetric curve, and when the curve starts at depth 0 with
area `a0` and its areas are non-increasing with depth, that maximum is
`a0`, so the residual equals `-(dH/dt - net_flux) * (area at depth 0)`. -/
theorem dhw_surface_area (dhdt hnet : ℕ → ℝ) (curve : List (ℚ × ℚ)) (a0 : ℚ)
    (hhead : curve.head? = some (0, a0))
    (hmono : List.Chain' (fun p q : ℚ × ℚ => q.2 ≤ p.2) curve) (t : ℕ) :
    maxArea (curve.map Prod.snd) = a0 ∧
    dhw_series dhdt hnet (maxArea (curve.map Prod.snd)) t
      = -(dhdt t - hnet t) * (a0 : ℝ) := by
  cases curve with
  | nil => simp at hhead
  | cons p rest =>
    have hp : p = (0, a0) := by simpa using hhead
    subst hp
    have hchain : List.Chain (fun x y : ℚ × ℚ => y.2 ≤ x.2) (0, a0) rest := hmono
    have hmax : maxArea (((0, a0) :: rest).map Prod.snd) = a0 := by
      show (rest.map Prod.snd).foldl max a0 = a0
      apply foldl_max_of_le
      intro x hx
      rcases List.mem_map.mp hx with ⟨q, hq, rfl⟩
      exact chain_snd_le (0, a0) rest hchain q hq
    exact ⟨hmax, by rw [hmax]; rfl⟩

/-- Witness for C1: a three-point curve with surface area 100. -/
theorem dhw_surface_area_witness :
    maxArea ([((0 : ℚ), (100 : ℚ)), (3, 60), (5, 20)].map Prod.snd) = 100 ∧
    dhw_series (fun _ => 7) (fun _ => 3)
        (maxArea ([((0 : ℚ), (100 : ℚ)), (3, 60), (5, 20)].map Prod.snd)) 0
      = -((7 : ℝ) - 3) * ((100 : ℚ) : ℝ) :=
  dhw_surface_area (fun _ => 7) (fun _ => 3) [(0, 100), (3, 60), (5, 20)] 100
    (by decide) (by norm_num [List.chain'_cons, List.chain'_singleton]) 0

/-- C10: the assumed inflow temperature `np.linspace(2, tmax, n)` runs
from 2 °C to the maximum observed surface temperature `tmax`, and when
`tmax > 0` and the caller-supplied density is positive, every entry of
the denominator series `dens(wtemp) * 4186 * wtemp` is strictly
positive, hence nonzero — the division producing the flow series never
divides by zero. -/
theorem flow_heat_pos (dens : ℝ → ℝ) (tmax : ℝ) (n i : ℕ)
    (hn : 2 ≤ n) (hi : i < n) (htmax : 0 < tmax)
    (hdens : ∀ x, 0 < dens x) :
    np_linspace 2 tmax n 0 = 2 ∧
    np_linspace 2 tmax n (n - 1) = tmax ∧
    0 < flow_heat dens tmax n i ∧
    flow_heat dens tmax n i ≠ 0 := by
  have hn2 : (2 : ℝ) ≤ (n : ℝ) := by exact_mod_cast hn
  have hd : (0 : ℝ) < (n : ℝ) - 1 := by linarith
  have hlin0 : np_linspace 2 tmax n 0 = 2 := by
    simp [np_linspace]
  have hlinlast : np_linspace 2 tmax n (n - 1) = tmax := by
    have h1 : 1 ≤ n := le_trans (by norm_num) hn
    rw [np_linspace, Nat.cast_sub h1, Nat.cast_one, mul_div_assoc,
      div_self hd.ne', mul_one]
    ring
  have hs0 : (0 : ℝ) ≤ (i : ℝ) / ((n : ℝ) - 1) :=
    div_nonneg (Nat.cast_nonneg i) hd.le
  have hs1 : (i : ℝ) / ((n : ℝ) - 1) ≤ 1 := by
    rw [div_le_one hd]
    have hi' : (i : ℝ) + 1 ≤ (n : ℝ) := by exact_mod_cast Nat.succ_le_of_lt hi
    linarith
  have hv : 0 < np_linspace 2 tmax n i := by
    rw [np_linspace, mul_div_assoc]
    rcases eq_or_lt_of_le hs1 with hone | hlt
    · rw [hone]
      nlinarith
    · nlinarith [mul_nonneg htmax.le hs0]
  have hfh : 0 < flow_heat dens tmax n i := by
    show 0 < dens (np_linspace 2 tmax n i) * 4186 * np_linspace 2 tmax n i
    exact mul_pos (mul_pos (hdens _) (by norm_num)) hv
  exact ⟨hlin0, hlinlast, hfh, hfh.ne'⟩

/-- Witness for C10: three samples, maximum surface temperature 10 °C,
constant density 1000. -/
theorem flow_heat_pos_witness :
    np_linspace 2 10 3 0 = 2 ∧
    np_linspace 2 10 3 (3 - 1) = 10 ∧
    0 < flow_heat (fun _ => 1000) 10 3 1 ∧
    flow_heat (fun _ => 1000) 10 3 1 ≠ 0 :=
  flow_heat_pos (fun _ => 1000) 10 3 1 (by norm_num) (by norm_num) (by norm_num)
    (fun _ => by norm_num)

end LakeHeat
